import Mathlib

/-!
Verification development for the AI-SDR voice server.

The embedding below models the two parts of the server that the
statements in this file are about, translated from `server.js`
(the newest variant of the source; `index.js` and `call-leads.js`
implement the same endpoints with the same observable behaviour on
the points proved here):

* the `/mcp/call_tool` endpoint (tool dispatch, `check_availability`
  date resolution and slot filtering, `book_demo` storage), and
* the `/media-stream` bridge between the telephony websocket and the
  speech-model websocket (audio forwarding, input-buffer commits,
  response requests).

Calendar dates are modelled as absolute day numbers (`Nat`) with the
convention that `d % 7` is the JavaScript `Date.getDay()` value of day
`d` (0 = Sunday .. 6 = Saturday).  The locale date formatting of the
platform (`toLocaleDateString`) is abstracted as an explicit function
argument `fmt : Nat → String`; the server only uses its output as an
opaque string searched for inside booking labels.
-/

namespace AiSdr

/-! ### Character-level string helpers

Executable stand-ins for the JavaScript string primitives the server
uses (`toLowerCase`, `includes`, `split(sep)[1]`, capitalisation);
defined structurally over `List Char` so that the kernel can evaluate
them on concrete inputs. -/

/-- Lowercase a string character by character (JS `toLowerCase` on the
ASCII strings the server compares). -/
def lowStr (s : String) : String :=
  String.mk (s.data.map Char.toLower)

/-- The call `dropPrefixCh pat s` returns `some rest` when `s = pat ++ rest`. -/
def dropPrefixCh : List Char → List Char → Option (List Char)
  | [], s => some s
  | _ :: _, [] => none
  | p :: ps, c :: cs => if p = c then dropPrefixCh ps cs else none

/-- Does `s` contain `pat` as a contiguous substring (JS `includes`)? -/
def containsSub (pat : List Char) : List Char → Bool
  | [] => (dropPrefixCh pat []).isSome
  | c :: cs => (dropPrefixCh pat (c :: cs)).isSome || containsSub pat cs

/-- String version of `containsSub`: JS `s.includes(pat)`. -/
def includesStr (s pat : String) : Bool :=
  containsSub pat.data s.data

/-- Characters following the first occurrence of `pat`, if any. -/
def afterFirst (pat : List Char) : List Char → Option (List Char)
  | [] => dropPrefixCh pat []
  | c :: cs =>
    match dropPrefixCh pat (c :: cs) with
    | some r => some r
    | none => afterFirst pat cs

/-- Characters up to (excluding) the next occurrence of `pat`. -/
def upToNext (pat : List Char) : List Char → List Char
  | [] => []
  | c :: cs =>
    if (dropPrefixCh pat (c :: cs)).isSome then []
    else c :: upToNext pat cs

/-- JS `s.split(pat)[1]`: the text strictly between the first and the
second occurrence of `pat` (up to the end when there is no second
occurrence); `none` when `pat` does not occur at all. -/
def splitSecond (s pat : String) : Option String :=
  (afterFirst pat.data s.data).map (fun r => String.mk (upToNext pat.data r))

/-- JS `s.charAt(0).toUpperCase() + s.slice(1)`. -/
def capitalizeStr (s : String) : String :=
  match s.data with
  | [] => s
  | c :: cs => String.mk (Char.toUpper c :: cs)

/-! ### Scheduling data model (`/mcp/call_tool` in server.js) -/

/-- The JS `days` array used for weekday resolution (index = `getDay`). -/
def weekdayNames : List String :=
  ["sunday", "monday", "tuesday", "wednesday", "thursday", "friday", "saturday"]

/-- The weekday names accepted by the `when` parser. -/
def bookableDayNames : List String :=
  ["monday", "tuesday", "wednesday", "thursday", "friday"]

/-- The static `DEMO_SLOTS` catalog. -/
def DEMO_SLOTS : List (String × List String) :=
  [("monday", ["9:00 AM", "10:00 AM", "11:00 AM", "2:00 PM", "3:00 PM", "4:00 PM"]),
   ("tuesday", ["9:00 AM", "10:00 AM", "11:00 AM", "2:00 PM", "3:00 PM", "4:00 PM"]),
   ("wednesday", ["9:00 AM", "10:00 AM", "11:00 AM", "2:00 PM", "3:00 PM", "4:00 PM"]),
   ("thursday", ["9:00 AM", "10:00 AM", "11:00 AM", "2:00 PM", "3:00 PM", "4:00 PM"]),
   ("friday", ["9:00 AM", "10:00 AM", "11:00 AM", "2:00 PM", "3:00 PM"])]

/-- The lookup `DEMO_SLOTS[dayName] || []`. -/
def demoSlots (dayName : String) : List String :=
  match DEMO_SLOTS.find? (fun p => p.1 = dayName) with
  | some p => p.2
  | none => []

/-- The JS expression `(targetDay - currentDay + 7) % 7 || 7`: days to
add to reach weekday `targetDay` from weekday `currentDay`. -/
def weekdayStep (targetDay currentDay : Nat) : Nat :=
  if (targetDay + 7 - currentDay) % 7 = 0 then 7
  else (targetDay + 7 - currentDay) % 7

/-- The `when`-parsing if/else chain of `check_availability`: the number
of days added to today's date.  `whenArg` is the raw argument with a
missing value read as `""` (JS `args.when || ''`). -/
def dayOffset (whenArg : String) (currentDay : Nat) : Nat :=
  if whenArg = "tomorrow" then 1
  else if bookableDayNames.contains (lowStr whenArg) then
    weekdayStep (weekdayNames.indexOf (lowStr whenArg)) currentDay
  else 0

/-- The resolved `targetDate` of `check_availability` (absolute day). -/
def resolveDate (whenArg : String) (today : Nat) : Nat :=
  today + dayOffset whenArg (today % 7)

/-- Lowercased long weekday name of an absolute day (the
`Intl.DateTimeFormat(..., { weekday: 'long' })` + `toLowerCase` step). -/
def weekdayNameOf (d : Nat) : String :=
  weekdayNames.getD (d % 7) ""

/-- The `arguments` object of a `/mcp/call_tool` request: every field
may be absent. -/
structure ToolArgs where
  whenArg : Option String
  restaurantName : Option String
  ownerName : Option String
  phone : Option String
  email : Option String
  datetime : Option String
  notes : Option String
deriving DecidableEq

/-- A stored demo booking (`storeDemoData`): the spread of the raw
arguments plus id, timestamp and fixed status. -/
structure Booking where
  id : String
  restaurantName : Option String
  ownerName : Option String
  phone : Option String
  email : Option String
  datetime : Option String
  notes : Option String
  bookedAt : Nat
  status : String
deriving DecidableEq

/-- Lead metadata stored in `activeCallSessions`. -/
structure LeadData where
  name : String
  company : String
  email : String
  phoneNumber : String
deriving DecidableEq

/-- The server's mutable scheduling state: the two process-wide maps,
modelled as insertion-ordered association lists (JS `Map` iteration
order is insertion order). -/
structure SrvState where
  activeCallSessions : List (String × LeadData)
  bookedDemos : List Booking
deriving DecidableEq

/-- A `{time, display}` slot object. -/
abbrev Slot := String × String

/-- The four reply shapes `/mcp/call_tool` can return, plus
`thrownError`, which models an uncaught exception escaping the handler
(the framework then answers with a 500, not with one of the handler's
own reply objects). -/
inductive ToolReply where
  | weekendReply (message : String) (slots : List Slot)
  | availReply (date : String) (dayName : String) (slots : List Slot)
  | bookReply (confirmationId : String) (message : String)
      (datetime : Option String) (details : String)
  | errorReply (error : String)
  | thrownError
deriving DecidableEq

/-- The `bookedDemos.forEach` body for one stored booking: when the
booking has no datetime, `demo.datetime.includes(dateStr)` throws a
TypeError in the source, modelled as `Except.error ()`; otherwise the
optional time label the booking contributes for date string `dateStr`
— present when its datetime contains `dateStr` and has a non-empty
part after `" at "` (JS `if (time)`). -/
def bookingLabel (dateStr : String) (demo : Booking) : Except Unit (Option String) :=
  match demo.datetime with
  | none => Except.error ()
  | some dt =>
    Except.ok
      (if includesStr dt dateStr then
        match splitSecond dt " at " with
        | some t => if t = "" then none else some t
        | none => none
      else none)

/-- The `bookedForDate` list accumulated over all stored bookings in
iteration order; the first datetime-less booking aborts the whole
handler with the thrown TypeError. -/
def bookedForDate (demos : List Booking) (dateStr : String) : Except Unit (List String) :=
  match demos with
  | [] => Except.ok []
  | d :: ds =>
    match bookingLabel dateStr d with
    | Except.error e => Except.error e
    | Except.ok none => bookedForDate ds dateStr
    | Except.ok (some t) => (bookedForDate ds dateStr).map (fun l => t :: l)

/-- The `check_availability` branch of `/mcp/call_tool`. -/
def checkAvailability (args : ToolArgs) (st : SrvState) (today : Nat)
    (fmt : Nat → String) : ToolReply :=
  let targetDate := resolveDate (args.whenArg.getD "") today
  let dayName := weekdayNameOf targetDate
  let dateStr := fmt targetDate
  if dayName = "saturday" ∨ dayName = "sunday" then
    ToolReply.weekendReply "No demos on weekends" []
  else
    let allSlots := demoSlots dayName
    match bookedForDate st.bookedDemos dateStr with
    | Except.error _ => ToolReply.thrownError
    | Except.ok booked =>
      let available := allSlots.filter (fun slot => ! booked.contains slot)
      ToolReply.availReply dateStr (capitalizeStr dayName)
        (available.map (fun time => (time, dateStr ++ " at " ++ time)))

/-- JS `Map.set`: replace the entry with the same key in place,
otherwise append. -/
def setBooking : List Booking → Booking → List Booking
  | [], b => [b]
  | x :: xs, b => if x.id = b.id then b :: xs else x :: setBooking xs b

/-- The `storeDemoData` helper: build the booking record with id `DEMO-<now>` and
insert it into `bookedDemos`. -/
def storeDemoData (args : ToolArgs) (st : SrvState) (now : Nat) :
    String × SrvState :=
  let demoId := "DEMO-" ++ toString now
  let b : Booking :=
    ⟨demoId, args.restaurantName, args.ownerName, args.phone, args.email,
      args.datetime, args.notes, now, "scheduled"⟩
  (demoId, ⟨st.activeCallSessions, setBooking st.bookedDemos b⟩)

/-- JS template-literal interpolation of a possibly-absent field. -/
def optShow (o : Option String) : String :=
  o.getD "undefined"

/-- The `book_demo` branch of `/mcp/call_tool` (the Slack/SMS
notifications are external fire-and-forget side effects with no
bearing on the reply or the state). -/
def bookDemo (args : ToolArgs) (st : SrvState) (now : Nat) :
    ToolReply × SrvState :=
  let r := storeDemoData args st now
  (ToolReply.bookReply r.1
    ("Demo confirmed for " ++ optShow args.ownerName ++ " from " ++
      optShow args.restaurantName)
    args.datetime
    "Jakob will call at the scheduled time. Calendar invite coming shortly.",
   r.2)

/-- The whole `/mcp/call_tool` handler: dispatch on the tool name.
`today` is the current absolute day, `now` the current timestamp used
for booking ids, `fmt` the locale date formatter. -/
def callTool (tool : String) (args : ToolArgs) (st : SrvState)
    (today now : Nat) (fmt : Nat → String) : ToolReply × SrvState :=
  if tool = "check_availability" then (checkAvailability args st today fmt, st)
  else if tool = "book_demo" then bookDemo args st now
  else (ToolReply.errorReply "Unknown tool", st)

/-- The time labels of the slots carried by a reply. -/
def replyTimes : ToolReply → List String
  | ToolReply.availReply _ _ slots => slots.map Prod.fst
  | ToolReply.weekendReply _ slots => slots.map Prod.fst
  | _ => []

/-- The confirmation id carried by a booking reply. -/
def replyConfId : ToolReply → Option String
  | ToolReply.bookReply c _ _ _ => some c
  | _ => none

/-- Is the reply the error shape (`{ error: ... }`)? -/
def replyIsError : ToolReply → Bool
  | ToolReply.errorReply _ => true
  | _ => false

/-! ### Audio relay bridge (`/media-stream` in server.js)

One call's bridge between the Twilio media websocket and the model
websocket.  The handlers below are the event callbacks of the source,
turned into a step function on the per-call mutable variables
(`streamSid`, `lastCommitTs` and the open-state of the model socket)
producing the messages sent on either socket.  Events from both
sockets interleave arbitrarily in the input list, exactly as the two
callbacks interleave at run time. -/

/-- Messages the bridge sends on the model socket. -/
inductive OaMsg where
  | sessionUpdate
  | kickoffItem
  | responseCreate
  | bufferCommit
  | bufferAppend (audio : String)
deriving DecidableEq

/-- A message emitted by the bridge on one of its two sockets. -/
inductive BridgeOut where
  | toModel (m : OaMsg)
  | toTwilio (sid : String) (payload : String)
deriving DecidableEq

/-- The events the bridge reacts to: model-socket events (`oa…`) and
Twilio-socket events (`tw…`).  `twMedia` carries the wall-clock
timestamp `Date.now()` observed inside the handler. -/
inductive BridgeEv where
  | oaOpen
  | oaAudioDelta (delta : String)
  | oaSpeechStopped
  | oaResponseDone
  | oaErrorEvt
  | twStart (sid : String)
  | twMedia (payload : String) (now : Nat)
  | twStop
deriving DecidableEq

/-- The per-call mutable variables of the bridge.  `pendingAppends` is
instrumentation only: it counts audio appends since the last commit in
order to state pending-audio side conditions; no handler reads it and
it never influences any output. -/
structure BridgeState where
  streamSid : Option String
  lastCommitTs : Nat
  oaOpen : Bool
  pendingAppends : Nat
deriving DecidableEq

/-- One event-handler activation of the bridge. -/
def stepBridge (s : BridgeState) : BridgeEv → BridgeState × List BridgeOut
  | BridgeEv.oaOpen =>
    (⟨s.streamSid, s.lastCommitTs, true, s.pendingAppends⟩,
     [BridgeOut.toModel OaMsg.sessionUpdate,
      BridgeOut.toModel OaMsg.kickoffItem,
      BridgeOut.toModel OaMsg.responseCreate])
  | BridgeEv.oaAudioDelta d =>
    match s.streamSid with
    | none => (s, [])
    | some sid => (s, [BridgeOut.toTwilio sid d])
  | BridgeEv.oaSpeechStopped =>
    (⟨s.streamSid, s.lastCommitTs, s.oaOpen, 0⟩,
     [BridgeOut.toModel OaMsg.bufferCommit,
      BridgeOut.toModel OaMsg.responseCreate])
  | BridgeEv.oaResponseDone => (s, [])
  | BridgeEv.oaErrorEvt => (s, [])
  | BridgeEv.twStart sid =>
    (⟨some sid, s.lastCommitTs, s.oaOpen, s.pendingAppends⟩, [])
  | BridgeEv.twMedia payload now =>
    if s.oaOpen then
      if now - s.lastCommitTs > 300 then
        (⟨s.streamSid, now, s.oaOpen, 0⟩,
         [BridgeOut.toModel (OaMsg.bufferAppend payload),
          BridgeOut.toModel OaMsg.bufferCommit])
      else
        (⟨s.streamSid, s.lastCommitTs, s.oaOpen, s.pendingAppends + 1⟩,
         [BridgeOut.toModel (OaMsg.bufferAppend payload)])
    else (s, [])
  | BridgeEv.twStop =>
    if s.oaOpen then
      (⟨s.streamSid, s.lastCommitTs, s.oaOpen, 0⟩,
       [BridgeOut.toModel OaMsg.bufferCommit,
        BridgeOut.toModel OaMsg.responseCreate])
    else (s, [])

/-- Run the bridge over a whole event sequence, collecting every
emitted message in order. -/
def runBridge : List BridgeEv → BridgeState → BridgeState × List BridgeOut
  | [], s => (s, [])
  | e :: es, s =>
    let p := stepBridge s e
    let q := runBridge es p.1
    (q.1, p.2 ++ q.2)

/-- The state at the start of a call. -/
def initBridge : BridgeState :=
  ⟨none, 0, false, 0⟩

/-- All messages emitted over an event sequence from a fresh call. -/
def bridgeOutputs (es : List BridgeEv) : List BridgeOut :=
  (runBridge es initBridge).2

/-- The bridge state after an event sequence from a fresh call. -/
def bridgeStateAfter (es : List BridgeEv) : BridgeState :=
  (runBridge es initBridge).1

/-- The audio payloads delivered to the Twilio socket, in order. -/
def twPayloads (outs : List BridgeOut) : List String :=
  outs.filterMap (fun o =>
    match o with
    | BridgeOut.toTwilio _ p => some p
    | _ => none)

/-- Number of `response.create` requests the bridge issued. -/
def requestsIssued (es : List BridgeEv) : Nat :=
  (bridgeOutputs es).count (BridgeOut.toModel OaMsg.responseCreate)

/-- Number of `response.done` signals received from the model. -/
def donesReceived (es : List BridgeEv) : Nat :=
  es.count BridgeEv.oaResponseDone

/-- Specification-side description of outbound-audio delivery: the
model audio chunks of an event sequence that arrive once the telephony
stream id is known (`known` starts as false and becomes true at the
first `start` frame). -/
def postStartDeltas (known : Bool) : List BridgeEv → List String
  | [] => []
  | BridgeEv.twStart _ :: es => postStartDeltas true es
  | BridgeEv.oaAudioDelta d :: es =>
    if known then d :: postStartDeltas known es
    else postStartDeltas known es
  | _ :: es => postStartDeltas known es

/-- For each commit emitted, how many audio appends preceded it since
the previous commit (scanning the output trace). -/
def commitPendingCounts (pending : Nat) : List BridgeOut → List Nat
  | [] => []
  | BridgeOut.toModel OaMsg.bufferCommit :: l => pending :: commitPendingCounts 0 l
  | BridgeOut.toModel (OaMsg.bufferAppend _) :: l => commitPendingCounts (pending + 1) l
  | _ :: l => commitPendingCounts pending l

/-! ### Specification-side definitions and concrete fixtures -/

/-- Specification-side reading of slot occupancy: booking `b` blocks
`slot` on the date formatted as `dateStr` when its datetime label
contains `dateStr` and its part after `" at "` is exactly `slot`. -/
def bookingCovers (b : Booking) (dateStr slot : String) : Bool :=
  match b.datetime with
  | some dt => includesStr dt dateStr && (splitSecond dt " at " == some slot)
  | none => false

/-- Specification-side: some stored booking blocks `slot` on the date
formatted as `dateStr`. -/
def slotTaken (demos : List Booking) (dateStr slot : String) : Bool :=
  demos.any (fun b => bookingCovers b dateStr slot)

/-- The same tool arguments with the `when` field replaced by
`"today"`. -/
def withWhenToday (args : ToolArgs) : ToolArgs :=
  ⟨some "today", args.restaurantName, args.ownerName, args.phone,
    args.email, args.datetime, args.notes⟩

/-- A `book_demo` argument object missing the required `phone` field. -/
def noPhoneArgs : ToolArgs :=
  ⟨none, some "Marios Pizzeria", some "Mario", none, none,
    some "Oct 13 at 9:00 AM", none⟩

/-- A tool call with no arguments supplied at all. -/
def emptyArgs : ToolArgs :=
  ⟨none, none, none, none, none, none, none⟩

/-- A tool call whose `when` argument is the unrecognized `"foo"`. -/
def fooArgs : ToolArgs :=
  ⟨some "foo", none, none, none, none, none, none⟩

/-- A stored booking at 9:00 AM on the date formatted as `"D1"`. -/
def mondayBooking : Booking :=
  ⟨"DEMO-1", some "Reys Tacos", some "Rey", some "555", none,
    some "D1 at 9:00 AM", none, 1, "scheduled"⟩

/-- A concrete locale date formatter for witnesses: day `n` prints as
`D<n>`. -/
def dFmt : Nat → String :=
  fun n => "D" ++ toString n

/-- The empty server state. -/
def emptyState : SrvState :=
  ⟨[], []⟩

/-! ### Helper lemmas -/

/-- Inserting a booking whose id is fresh appends it at the end. -/
theorem setBooking_fresh (bs : List Booking) (b : Booking)
    (h : ∀ x ∈ bs, x.id ≠ b.id) : setBooking bs b = bs ++ [b] := by
  induction bs with
  | nil => rfl
  | cons x xs ih =>
    have hx : ¬ x.id = b.id := h x (by simp)
    simp only [setBooking, if_neg hx, List.cons_append, List.cons.injEq, true_and]
    exact ih (fun y hy => h y (by simp [hy]))

/-! ### C9: unknown tool names -/

/-- C9: a `/mcp/call_tool` request naming any tool other than
`check_availability` and `book_demo` returns the structured
`{ error: "Unknown tool" }` reply and leaves the whole server state
(sessions and bookings) unchanged. -/
theorem unknown_tool_structured_error (tool : String) (args : ToolArgs)
    (st : SrvState) (today now : Nat) (fmt : Nat → String)
    (h1 : tool ≠ "check_availability") (h2 : tool ≠ "book_demo") :
    callTool tool args st today now fmt = (ToolReply.errorReply "Unknown tool", st) := by
  unfold callTool
  rw [if_neg h1, if_neg h2]

/-- Witness for C9 at the concrete unknown tool name `"foo"`. -/
theorem unknown_tool_structured_error_witness :
    (("foo" : String) ≠ "check_availability" ∧ ("foo" : String) ≠ "book_demo") ∧
    callTool "foo" emptyArgs ⟨[], [mondayBooking]⟩ 1 2 dFmt =
      (ToolReply.errorReply "Unknown tool", ⟨[], [mondayBooking]⟩) :=
  ⟨⟨by decide, by decide⟩,
    unknown_tool_structured_error "foo" emptyArgs ⟨[], [mondayBooking]⟩ 1 2 dFmt
      (by decide) (by decide)⟩

/-! ### C7: weekend resolution -/

/-- C7: whenever the resolved date of a `check_availability` call falls
on a Saturday or a Sunday, the reply is the success-shaped
weekend reply with the explanation message and an empty slot list, and
the state is unchanged; it is never an error and carries no catalog
slot. -/
theorem weekend_availability_empty (args : ToolArgs) (st : SrvState)
    (today now : Nat) (fmt : Nat → String)
    (hwk : resolveDate (args.whenArg.getD "") today % 7 = 0 ∨
           resolveDate (args.whenArg.getD "") today % 7 = 6) :
    callTool "check_availability" args st today now fmt =
      (ToolReply.weekendReply "No demos on weekends" [], st) := by
  have hday : weekdayNameOf (resolveDate (args.whenArg.getD "") today) = "sunday" ∨
      weekdayNameOf (resolveDate (args.whenArg.getD "") today) = "saturday" := by
    rcases hwk with h | h
    · left; unfold weekdayNameOf; rw [h]; rfl
    · right; unfold weekdayNameOf; rw [h]; rfl
  rcases hday with h | h <;> simp [callTool, checkAvailability, h]

/-- Witness for C7: with no `when` argument on a Saturday (absolute day
6), the reply is the weekend reply. -/
theorem weekend_availability_empty_witness :
    (resolveDate (emptyArgs.whenArg.getD "") 6 % 7 = 0 ∨
     resolveDate (emptyArgs.whenArg.getD "") 6 % 7 = 6) ∧
    callTool "check_availability" emptyArgs ⟨[], [mondayBooking]⟩ 6 0 dFmt =
      (ToolReply.weekendReply "No demos on weekends" [], ⟨[], [mondayBooking]⟩) :=
  ⟨by decide,
    weekend_availability_empty emptyArgs ⟨[], [mondayBooking]⟩ 6 0 dFmt (by decide)⟩

/-! ### C3: book_demo never validates -/

/-- C3 counterexample: `book_demo` with the `phone` field missing does
not fail with a validation error — it returns the success-shaped
booking reply with a confirmation id and stores one new booking.  The
source has no validation of the four required fields at all. -/
theorem book_demo_validation_refuted :
    replyIsError (callTool "book_demo" noPhoneArgs emptyState 0 1000 dFmt).1 = false ∧
    replyConfId (callTool "book_demo" noPhoneArgs emptyState 0 1000 dFmt).1 =
      some "DEMO-1000" ∧
    (callTool "book_demo" noPhoneArgs emptyState 0 1000 dFmt).2.bookedDemos.length = 1 := by
  decide

/-- C3 amended: every `book_demo` invocation — whether or not the four
required fields are present — returns a non-error reply carrying the
confirmation id `DEMO-<now>` and stores exactly one new booking,
leaving the sessions untouched (assuming the generated id is fresh,
which the source takes for granted). -/
theorem book_demo_always_books (args : ToolArgs) (st : SrvState)
    (today now : Nat) (fmt : Nat → String)
    (hfresh : ∀ b ∈ st.bookedDemos, b.id ≠ "DEMO-" ++ toString now) :
    replyIsError (callTool "book_demo" args st today now fmt).1 = false ∧
    replyConfId (callTool "book_demo" args st today now fmt).1 =
      some ("DEMO-" ++ toString now) ∧
    (callTool "book_demo" args st today now fmt).2.bookedDemos.length =
      st.bookedDemos.length + 1 ∧
    (callTool "book_demo" args st today now fmt).2.activeCallSessions =
      st.activeCallSessions := by
  have hstep : callTool "book_demo" args st today now fmt =
      (ToolReply.bookReply ("DEMO-" ++ toString now)
        ("Demo confirmed for " ++ optShow args.ownerName ++ " from " ++
          optShow args.restaurantName)
        args.datetime
        "Jakob will call at the scheduled time. Calendar invite coming shortly.",
       ⟨st.activeCallSessions,
        setBooking st.bookedDemos
          ⟨"DEMO-" ++ toString now, args.restaurantName, args.ownerName, args.phone,
            args.email, args.datetime, args.notes, now, "scheduled"⟩⟩) := by
    unfold callTool
    rw [if_neg (by decide), if_pos rfl]
    rfl
  rw [hstep]
  refine ⟨rfl, rfl, ?_, rfl⟩
  rw [setBooking_fresh st.bookedDemos
        ⟨"DEMO-" ++ toString now, args.restaurantName, args.ownerName, args.phone,
          args.email, args.datetime, args.notes, now, "scheduled"⟩
        (fun x hx => hfresh x hx)]
  simp

/-- Witness for C3's amended statement on the empty store. -/
theorem book_demo_always_books_witness :
    (∀ b ∈ emptyState.bookedDemos, b.id ≠ "DEMO-" ++ toString 1000) ∧
    (replyIsError (callTool "book_demo" noPhoneArgs emptyState 0 1000 dFmt).1 = false ∧
     replyConfId (callTool "book_demo" noPhoneArgs emptyState 0 1000 dFmt).1 =
       some ("DEMO-" ++ toString 1000) ∧
     (callTool "book_demo" noPhoneArgs emptyState 0 1000 dFmt).2.bookedDemos.length =
       emptyState.bookedDemos.length + 1 ∧
     (callTool "book_demo" noPhoneArgs emptyState 0 1000 dFmt).2.activeCallSessions =
       emptyState.activeCallSessions) :=
  ⟨by decide, book_demo_always_books noPhoneArgs emptyState 0 1000 dFmt (by decide)⟩

/-! ### C10: unrecognized `when` values resolve to today -/

/-- C10: any `when` value that is neither `"tomorrow"` nor a bookable
weekday name is silently treated as `"today"`: the call returns exactly
what a `"today"` call returns (today's availability, or today's
weekend-empty reply), never an error. -/
theorem unrecognized_when_treated_as_today (args : ToolArgs) (st : SrvState)
    (today now : Nat) (fmt : Nat → String)
    (h1 : args.whenArg.getD "" ≠ "tomorrow")
    (h2 : bookableDayNames.contains (lowStr (args.whenArg.getD "")) = false) :
    callTool "check_availability" args st today now fmt =
      callTool "check_availability" (withWhenToday args) st today now fmt := by
  have ha : dayOffset (args.whenArg.getD "") (today % 7) = 0 := by
    unfold dayOffset
    rw [if_neg h1, if_neg (by rw [h2]; decide)]
  have hb : dayOffset ((withWhenToday args).whenArg.getD "") (today % 7) = 0 := by
    simp only [withWhenToday, Option.getD_some]
    unfold dayOffset
    rw [if_neg (by decide), if_neg (by decide)]
  unfold callTool
  rw [if_pos rfl, if_pos rfl]
  unfold checkAvailability resolveDate
  rw [ha, hb]

/-- Witness for C10 at the concrete unrecognized value `"foo"`. -/
theorem unrecognized_when_treated_as_today_witness :
    (fooArgs.whenArg.getD "" ≠ "tomorrow" ∧
     bookableDayNames.contains (lowStr (fooArgs.whenArg.getD "")) = false) ∧
    callTool "check_availability" fooArgs ⟨[], [mondayBooking]⟩ 1 0 dFmt =
      callTool "check_availability" (withWhenToday fooArgs) ⟨[], [mondayBooking]⟩ 1 0 dFmt :=
  ⟨⟨by decide, by decide⟩,
    unrecognized_when_treated_as_today fooArgs ⟨[], [mondayBooking]⟩ 1 0 dFmt
      (by decide) (by decide)⟩

/-! ### C6: weekday name resolution -/

/-- Arithmetic of the `(targetDay - currentDay + 7) % 7 || 7` step: it
lands on weekday `t`, strictly in the future, at most 7 days ahead. -/
theorem weekdayStep_spec (t c x : Nat) (ht : t < 7) (hx : x % 7 = c) :
    (x + weekdayStep t c) % 7 = t ∧ 0 < weekdayStep t c ∧ weekdayStep t c ≤ 7 := by
  by_cases h : (t + 7 - c) % 7 = 0
  · simp only [weekdayStep, if_pos h]
    omega
  · simp only [weekdayStep, if_neg h]
    omega

/-- The weekday branch of the `when` parser, reduced to `weekdayStep`. -/
theorem resolveDate_weekday (w : String) (t today : Nat) (ht : t < 7)
    (hne : w ≠ "tomorrow")
    (hcon : bookableDayNames.contains (lowStr w) = true)
    (hidx : weekdayNames.indexOf (lowStr w) = t) :
    resolveDate w today % 7 = t ∧ today < resolveDate w today ∧
      resolveDate w today ≤ today + 7 := by
  have hoff : dayOffset w (today % 7) = weekdayStep t (today % 7) := by
    unfold dayOffset
    rw [if_neg hne, if_pos hcon, hidx]
  obtain ⟨h1, h2, h3⟩ := weekdayStep_spec t (today % 7) today ht rfl
  unfold resolveDate
  rw [hoff]
  exact ⟨h1, by omega, by omega⟩

/-- C6 counterexample: on a Monday (absolute day 8, `8 % 7 = 1`), the
request `when = "monday"` does not resolve to today as the claim
states, but to day 15 — the same weekday one week later.  The `|| 7`
in the source forces a strictly future occurrence. -/
theorem weekday_resolution_today_refuted :
    weekdayNameOf 8 = "monday" ∧ resolveDate "monday" 8 ≠ 8 ∧
      resolveDate "monday" 8 = 15 := by
  decide

/-- C6 amended: a weekday name resolves to the next calendar date with
that weekday STRICTLY after today, rolling a full week ahead when
today itself is the named weekday: the resolved day has the requested
weekday index and lies between tomorrow and seven days out. -/
theorem weekday_resolution_strictly_future (w : String) (today : Nat)
    (hw : w ∈ bookableDayNames) :
    resolveDate w today % 7 = weekdayNames.indexOf w ∧
      today < resolveDate w today ∧ resolveDate w today ≤ today + 7 := by
  fin_cases hw
  · rw [show weekdayNames.indexOf "monday" = 1 from by decide]
    exact resolveDate_weekday "monday" 1 today (by decide) (by decide) (by decide) (by decide)
  · rw [show weekdayNames.indexOf "tuesday" = 2 from by decide]
    exact resolveDate_weekday "tuesday" 2 today (by decide) (by decide) (by decide) (by decide)
  · rw [show weekdayNames.indexOf "wednesday" = 3 from by decide]
    exact resolveDate_weekday "wednesday" 3 today (by decide) (by decide) (by decide) (by decide)
  · rw [show weekdayNames.indexOf "thursday" = 4 from by decide]
    exact resolveDate_weekday "thursday" 4 today (by decide) (by decide) (by decide) (by decide)
  · rw [show weekdayNames.indexOf "friday" = 5 from by decide]
    exact resolveDate_weekday "friday" 5 today (by decide) (by decide) (by decide) (by decide)

/-- Witness for C6's amended statement: `"friday"` asked on a Monday
(absolute day 1) resolves to day 5, a Friday within the week. -/
theorem weekday_resolution_strictly_future_witness :
    ("friday" ∈ bookableDayNames) ∧
    (resolveDate "friday" 1 % 7 = weekdayNames.indexOf "friday" ∧
      1 < resolveDate "friday" 1 ∧ resolveDate "friday" 1 ≤ 1 + 7) :=
  ⟨by decide, weekday_resolution_strictly_future "friday" 1 (by decide)⟩

/-! ### C1: response in-flight gating -/

/-- Any `n` speech-stopped signals produce exactly `n` response requests,
from any bridge state. -/
theorem count_create_replicate (n : Nat) : ∀ s : BridgeState,
    ((runBridge (List.replicate n BridgeEv.oaSpeechStopped) s).2).count
      (BridgeOut.toModel OaMsg.responseCreate) = n := by
  induction n with
  | zero => intro s; rfl
  | succ n ih =>
    intro s
    rw [List.replicate_succ]
    simp only [runBridge, stepBridge]
    rw [List.count_append, ih]
    simp [List.count_cons]
    omega

/-- C1 counterexample: two consecutive model speech-stopped signals
with no `response.done` in between make the bridge issue two response
requests, so two responses are pending at once — the second request is
issued while the first is still in flight.  The source keeps no
in-flight flag at all. -/
theorem single_response_in_flight_refuted :
    requestsIssued [BridgeEv.oaSpeechStopped, BridgeEv.oaSpeechStopped] = 2 ∧
    donesReceived [BridgeEv.oaSpeechStopped, BridgeEv.oaSpeechStopped] = 0 := by
  decide

/-- C1 amended: the bridge issues a response request unconditionally on
every speech-stopped signal, with no in-flight guard: `n` such signals
with no completed response yield `n` simultaneously pending responses,
for every `n`. -/
theorem response_requests_unbounded (n : Nat) :
    requestsIssued (List.replicate n BridgeEv.oaSpeechStopped) = n ∧
    donesReceived (List.replicate n BridgeEv.oaSpeechStopped) = 0 := by
  constructor
  · exact count_create_replicate n initBridge
  · show (List.replicate n BridgeEv.oaSpeechStopped).count BridgeEv.oaResponseDone = 0
    rw [List.count_eq_zero]
    simp [List.mem_replicate]

/-! ### C2: outbound audio before the stream id -/

/-- The projection `twPayloads` distributes over concatenated output traces. -/
theorem twPayloads_append (a b : List BridgeOut) :
    twPayloads (a ++ b) = twPayloads a ++ twPayloads b := by
  simp [twPayloads]

/-- A model-bound message contributes nothing to `twPayloads`. -/
theorem twPayloads_model (m : OaMsg) (l : List BridgeOut) :
    twPayloads (BridgeOut.toModel m :: l) = twPayloads l := rfl

/-- A Twilio-bound message contributes its payload to `twPayloads`. -/
theorem twPayloads_tw (sid p : String) (l : List BridgeOut) :
    twPayloads (BridgeOut.toTwilio sid p :: l) = p :: twPayloads l := rfl

/-- What the bridge delivers to Twilio is exactly the model audio that
arrives while the stream id is known. -/
theorem twPayloads_runBridge (es : List BridgeEv) : ∀ s : BridgeState,
    twPayloads (runBridge es s).2 = postStartDeltas s.streamSid.isSome es := by
  induction es with
  | nil => intro s; rfl
  | cons e es ih =>
    intro s
    cases e with
    | oaOpen =>
      simp [runBridge, stepBridge, twPayloads_append, twPayloads_model, postStartDeltas, ih]
    | oaAudioDelta d =>
      cases hs : s.streamSid with
      | none =>
        simp [runBridge, stepBridge, hs, twPayloads_append, twPayloads_model,
          postStartDeltas, ih]
      | some sid =>
        simp [runBridge, stepBridge, hs, twPayloads_append, twPayloads_model,
          twPayloads_tw, postStartDeltas, ih]
    | oaSpeechStopped =>
      simp [runBridge, stepBridge, twPayloads_append, twPayloads_model, postStartDeltas, ih]
    | oaResponseDone =>
      simp [runBridge, stepBridge, twPayloads_append, twPayloads_model, postStartDeltas, ih]
    | oaErrorEvt =>
      simp [runBridge, stepBridge, twPayloads_append, twPayloads_model, postStartDeltas, ih]
    | twStart sid =>
      simp [runBridge, stepBridge, twPayloads_append, twPayloads_model, postStartDeltas, ih]
    | twMedia payload now =>
      by_cases ho : s.oaOpen <;> by_cases hc : now - s.lastCommitTs > 300 <;>
        simp [runBridge, stepBridge, ho, hc, twPayloads_append, twPayloads_model,
          postStartDeltas, ih]
    | twStop =>
      by_cases ho : s.oaOpen <;>
        simp [runBridge, stepBridge, ho, twPayloads_append, twPayloads_model,
          postStartDeltas, ih]

/-- C2 counterexample: a model audio chunk `"a"` arriving before the
Twilio `start` frame is dropped, never delivered once the stream id
`"S"` becomes known; only the post-start chunk `"b"` reaches the
transport.  The source has no outbound buffer: it logs
`"dropping frame"` and discards the chunk. -/
theorem prestream_audio_buffering_refuted :
    twPayloads (bridgeOutputs
      [BridgeEv.oaOpen, BridgeEv.oaAudioDelta "a", BridgeEv.twStart "S",
        BridgeEv.oaAudioDelta "b"]) = ["b"] ∧
    "a" ∉ twPayloads (bridgeOutputs
      [BridgeEv.oaOpen, BridgeEv.oaAudioDelta "a", BridgeEv.twStart "S",
        BridgeEv.oaAudioDelta "b"]) := by
  decide

/-- C2 amended: over every event sequence, the payloads delivered to
the transport are exactly the outbound chunks that arrive AFTER the
stream id is known, in arrival order, each exactly once; every chunk
arriving before the stream id is known is dropped. -/
theorem outbound_audio_post_start_delivery (es : List BridgeEv) :
    twPayloads (bridgeOutputs es) = postStartDeltas false es := by
  have h := twPayloads_runBridge es initBridge
  simpa [bridgeOutputs, initBridge] using h

/-! ### C4: finalize before response after speech stopped -/

/-- C4: after a model speech-stopped signal arriving with audio pending
since the last finalize, every response request the bridge emits from
that point on is preceded by at least one finalize (commit) emitted at
or after the signal — the speech-stopped handler sends the commit
first, immediately followed by its response request. -/
theorem commit_precedes_any_response_after_speech_stopped
    (pre post : List BridgeEv)
    (_hpending : 0 < (bridgeStateAfter pre).pendingAppends) :
    ∀ n : Nat,
      ((runBridge (BridgeEv.oaSpeechStopped :: post) (bridgeStateAfter pre)).2).get? n =
          some (BridgeOut.toModel OaMsg.responseCreate) →
      ∃ m : Nat, m < n ∧
        ((runBridge (BridgeEv.oaSpeechStopped :: post) (bridgeStateAfter pre)).2).get? m =
          some (BridgeOut.toModel OaMsg.bufferCommit) := by
  intro n hn
  have hshape : (runBridge (BridgeEv.oaSpeechStopped :: post) (bridgeStateAfter pre)).2 =
      BridgeOut.toModel OaMsg.bufferCommit :: BridgeOut.toModel OaMsg.responseCreate ::
        (runBridge post ⟨(bridgeStateAfter pre).streamSid,
          (bridgeStateAfter pre).lastCommitTs, (bridgeStateAfter pre).oaOpen, 0⟩).2 := by
    simp [runBridge, stepBridge]
  rw [hshape] at hn ⊢
  match n, hn with
  | 0, hn => simp at hn
  | Nat.succ k, _ => exact ⟨0, Nat.succ_pos k, rfl⟩

/-- Witness for C4: one uncommitted media chunk is pending, then speech
stops; the emitted trace has its commit before any response request. -/
theorem commit_precedes_any_response_witness :
    0 < (bridgeStateAfter [BridgeEv.oaOpen, BridgeEv.twMedia "chunk" 100]).pendingAppends ∧
    (∀ n : Nat,
      ((runBridge (BridgeEv.oaSpeechStopped :: [])
          (bridgeStateAfter [BridgeEv.oaOpen, BridgeEv.twMedia "chunk" 100])).2).get? n =
          some (BridgeOut.toModel OaMsg.responseCreate) →
      ∃ m : Nat, m < n ∧
        ((runBridge (BridgeEv.oaSpeechStopped :: [])
            (bridgeStateAfter [BridgeEv.oaOpen, BridgeEv.twMedia "chunk" 100])).2).get? m =
          some (BridgeOut.toModel OaMsg.bufferCommit)) :=
  ⟨by decide,
    commit_precedes_any_response_after_speech_stopped
      [BridgeEv.oaOpen, BridgeEv.twMedia "chunk" 100] [] (by decide)⟩

/-! ### C5: commit batching threshold -/

/-- C5 counterexample: on the very first inbound media chunk of a call
(wall clock 1000, last-commit timestamp still 0) the bridge issues a
finalize with only ONE chunk — roughly 20ms of audio — pending, far
below the claimed 100–120ms accumulation threshold.  The trigger in
the source is elapsed wall-clock time since the last commit
(`now - lastCommitTs > 300`), not a count of accumulated audio. -/
theorem commit_threshold_refuted :
    commitPendingCounts 0
      (bridgeOutputs [BridgeEv.oaOpen, BridgeEv.twMedia "p" 1000]) = [1] := by
  decide

/-- C5 amended: on each inbound media chunk with the model socket open,
the chunk is appended exactly once, and a finalize is issued exactly
when more than 300ms of wall-clock time has elapsed since the last
media-path finalize, whose timestamp is then reset to the current
time; no pending-chunk counter is consulted. -/
theorem media_commit_wall_clock_throttle (s : BridgeState) (payload : String)
    (now : Nat) (hopen : s.oaOpen = true) :
    (BridgeOut.toModel OaMsg.bufferCommit ∈
        (stepBridge s (BridgeEv.twMedia payload now)).2 ↔
      300 < now - s.lastCommitTs) ∧
    (stepBridge s (BridgeEv.twMedia payload now)).1.lastCommitTs =
      (if 300 < now - s.lastCommitTs then now else s.lastCommitTs) ∧
    (stepBridge s (BridgeEv.twMedia payload now)).2.count
      (BridgeOut.toModel (OaMsg.bufferAppend payload)) = 1 := by
  by_cases hc : now - s.lastCommitTs > 300 <;>
    simp [stepBridge, hopen, hc, List.count_cons]

/-- Witness for C5's amended statement on a fresh open connection. -/
theorem media_commit_wall_clock_throttle_witness :
    ((⟨none, 0, true, 0⟩ : BridgeState).oaOpen = true) ∧
    ((BridgeOut.toModel OaMsg.bufferCommit ∈
        (stepBridge ⟨none, 0, true, 0⟩ (BridgeEv.twMedia "p" 1000)).2 ↔
      300 < 1000 - (⟨none, 0, true, 0⟩ : BridgeState).lastCommitTs) ∧
    (stepBridge ⟨none, 0, true, 0⟩ (BridgeEv.twMedia "p" 1000)).1.lastCommitTs =
      (if 300 < 1000 - (⟨none, 0, true, 0⟩ : BridgeState).lastCommitTs then 1000
       else (⟨none, 0, true, 0⟩ : BridgeState).lastCommitTs) ∧
    (stepBridge ⟨none, 0, true, 0⟩ (BridgeEv.twMedia "p" 1000)).2.count
      (BridgeOut.toModel (OaMsg.bufferAppend "p")) = 1) :=
  ⟨rfl, media_commit_wall_clock_throttle ⟨none, 0, true, 0⟩ "p" 1000 rfl⟩

/-! ### C8: weekday slot filtering -/

/-- For a non-empty slot label, a successfully computed forEach-body
contribution equals the specification-side occupancy test. -/
theorem bookingLabel_ok_eq_covers (b : Booking) (dateStr slot : String)
    (hs : slot ≠ "") :
    (bookingLabel dateStr b = Except.ok (some slot)) ↔
      bookingCovers b dateStr slot = true := by
  cases hdt : b.datetime with
  | none => simp [bookingLabel, bookingCovers, hdt]
  | some dt =>
    by_cases hin : includesStr dt dateStr
    · cases hsp : splitSecond dt " at " with
      | none => simp [bookingLabel, bookingCovers, hdt, hin, hsp]
      | some t =>
        by_cases ht : t = ""
        · subst ht
          simp [bookingLabel, bookingCovers, hdt, hin, hsp, Ne.symm hs]
        · simp [bookingLabel, bookingCovers, hdt, hin, hsp, ht]
    · simp [bookingLabel, bookingCovers, hdt, hin]

/-- A booking whose successfully computed contribution is `none`
blocks no non-empty slot. -/
theorem bookingLabel_ok_none_covers (b : Booking) (dateStr slot : String)
    (hs : slot ≠ "") (h : bookingLabel dateStr b = Except.ok none) :
    bookingCovers b dateStr slot = false := by
  cases hcv : bookingCovers b dateStr slot with
  | false => rfl
  | true =>
    have hlab := (bookingLabel_ok_eq_covers b dateStr slot hs).mpr hcv
    rw [h] at hlab
    simp at hlab

/-- When every stored booking carries a datetime, the forEach
accumulation succeeds without throwing, and membership of a non-empty
label in the accumulated list coincides with the specification-side
`slotTaken` test. -/
theorem bookedForDate_spec (demos : List Booking) (dateStr : String)
    (hdt : ∀ b ∈ demos, b.datetime ≠ none) :
    ∃ booked : List String, bookedForDate demos dateStr = Except.ok booked ∧
      ∀ slot : String, slot ≠ "" →
        booked.contains slot = slotTaken demos dateStr slot := by
  induction demos with
  | nil => exact ⟨[], rfl, fun _ _ => rfl⟩
  | cons b bs ih =>
    obtain ⟨booked, hok, hrel⟩ := ih (fun x hx => hdt x (by simp [hx]))
    obtain ⟨dt, hbdt⟩ : ∃ dt, b.datetime = some dt := by
      cases hc : b.datetime with
      | none => exact absurd hc (hdt b (by simp))
      | some dt => exact ⟨dt, rfl⟩
    cases hl : bookingLabel dateStr b with
    | error e => simp [bookingLabel, hbdt] at hl
    | ok lab =>
      cases lab with
      | none =>
        refine ⟨booked, ?_, ?_⟩
        · show bookedForDate (b :: bs) dateStr = Except.ok booked
          simp only [bookedForDate, hl]
          exact hok
        · intro slot hs
          have hcov : bookingCovers b dateStr slot = false :=
            bookingLabel_ok_none_covers b dateStr slot hs hl
          rw [show slotTaken (b :: bs) dateStr slot = slotTaken bs dateStr slot from by
            simp [slotTaken, List.any_cons, hcov]]
          exact hrel slot hs
      | some t =>
        refine ⟨t :: booked, ?_, ?_⟩
        · show bookedForDate (b :: bs) dateStr = Except.ok (t :: booked)
          simp only [bookedForDate, hl, hok]
          rfl
        · intro slot hs
          have hiff := bookingLabel_ok_eq_covers b dateStr slot hs
          have hcv : (slot == t) = bookingCovers b dateStr slot := by
            rw [Bool.eq_iff_iff, beq_iff_eq]
            constructor
            · intro he
              exact hiff.mp (by rw [hl, he])
            · intro hc
              have hlab := hiff.mpr hc
              rw [hl] at hlab
              simp at hlab
              exact hlab.symm
          have h1 : (t :: booked).contains slot =
              ((slot == t) || booked.contains slot) := by
            rw [Bool.eq_iff_iff]
            simp [List.contains_cons, beq_iff_eq]
          have h2 : slotTaken (b :: bs) dateStr slot =
              (bookingCovers b dateStr slot || slotTaken bs dateStr slot) := by
            simp [slotTaken, List.any_cons]
          rw [h1, h2, hcv, hrel slot hs]

/-- No slot label of the static catalog is the empty string. -/
theorem demoSlots_mem_ne (d s : String) (hs : s ∈ demoSlots d) : s ≠ "" := by
  unfold demoSlots at hs
  cases hfind : DEMO_SLOTS.find? (fun p => p.1 = d) with
  | none => rw [hfind] at hs; simp at hs
  | some p =>
    rw [hfind] at hs
    have hp : p ∈ DEMO_SLOTS := List.mem_of_find?_eq_some hfind
    have hall : ∀ q ∈ DEMO_SLOTS, ∀ x ∈ q.2, x ≠ "" := by decide
    exact hall p hp s hs

/-- On a weekday resolution whose forEach accumulation succeeds, the
handler returns the availability reply built from the accumulated
list. -/
theorem checkAvailability_weekday_ok (args : ToolArgs) (st : SrvState)
    (today : Nat) (fmt : Nat → String) (booked : List String)
    (hwd : ¬(weekdayNameOf (resolveDate (args.whenArg.getD "") today) = "saturday" ∨
             weekdayNameOf (resolveDate (args.whenArg.getD "") today) = "sunday"))
    (hok : bookedForDate st.bookedDemos (fmt (resolveDate (args.whenArg.getD "") today)) =
        Except.ok booked) :
    checkAvailability args st today fmt =
      ToolReply.availReply (fmt (resolveDate (args.whenArg.getD "") today))
        (capitalizeStr (weekdayNameOf (resolveDate (args.whenArg.getD "") today)))
        (((demoSlots (weekdayNameOf (resolveDate (args.whenArg.getD "") today))).filter
            (fun slot => ! booked.contains slot)).map
          (fun time =>
            (time, fmt (resolveDate (args.whenArg.getD "") today) ++ " at " ++ time))) := by
  have hform : checkAvailability args st today fmt =
      (if weekdayNameOf (resolveDate (args.whenArg.getD "") today) = "saturday" ∨
          weekdayNameOf (resolveDate (args.whenArg.getD "") today) = "sunday" then
        ToolReply.weekendReply "No demos on weekends" []
      else
        match bookedForDate st.bookedDemos (fmt (resolveDate (args.whenArg.getD "") today)) with
        | Except.error _ => ToolReply.thrownError
        | Except.ok booked =>
          ToolReply.availReply (fmt (resolveDate (args.whenArg.getD "") today))
            (capitalizeStr (weekdayNameOf (resolveDate (args.whenArg.getD "") today)))
            (((demoSlots (weekdayNameOf (resolveDate (args.whenArg.getD "") today))).filter
                (fun slot => ! booked.contains slot)).map
              (fun time =>
                (time, fmt (resolveDate (args.whenArg.getD "") today) ++ " at " ++ time)))) :=
    rfl
  rw [hform, if_neg hwd, hok]

/-- The crash path is modelled, not skipped: a stored booking without
a datetime makes the weekday availability computation throw (the
TypeError of `demo.datetime.includes` on `undefined`), so the handler
produces no slot list at all. -/
theorem datetime_missing_throws :
    checkAvailability emptyArgs
      ⟨[], [⟨"DEMO-9", none, none, none, none, none, none, 9, "scheduled"⟩]⟩ 1 dFmt =
      ToolReply.thrownError := by
  decide

/-- C8: on a weekday resolution, over every store whose bookings all
carry a datetime label (the only stores on which the source's forEach
does not throw), the time labels returned by `check_availability` are
exactly the static catalog of that weekday minus every time label
already present in a stored booking whose datetime label contains the
resolved date's formatted string. -/
theorem weekday_availability_filters_bookings (args : ToolArgs) (st : SrvState)
    (today now : Nat) (fmt : Nat → String)
    (hdt : ∀ b ∈ st.bookedDemos, b.datetime ≠ none)
    (hwd : ¬(weekdayNameOf (resolveDate (args.whenArg.getD "") today) = "saturday" ∨
             weekdayNameOf (resolveDate (args.whenArg.getD "") today) = "sunday")) :
    replyTimes (callTool "check_availability" args st today now fmt).1 =
      (demoSlots (weekdayNameOf (resolveDate (args.whenArg.getD "") today))).filter
        (fun slot =>
          ! slotTaken st.bookedDemos (fmt (resolveDate (args.whenArg.getD "") today)) slot) := by
  obtain ⟨booked, hok, hrel⟩ :=
    bookedForDate_spec st.bookedDemos (fmt (resolveDate (args.whenArg.getD "") today)) hdt
  have hstep : callTool "check_availability" args st today now fmt =
      (checkAvailability args st today fmt, st) := by
    unfold callTool
    rw [if_pos rfl]
  rw [hstep]
  show replyTimes (checkAvailability args st today fmt) = _
  rw [checkAvailability_weekday_ok args st today fmt booked hwd hok]
  simp only [replyTimes, List.map_map]
  have hcomp : ∀ g : String → String,
      (Prod.fst ∘ fun time : String => (time, g time)) = id :=
    fun g => funext (fun _ => rfl)
  rw [hcomp, List.map_id]
  apply List.filter_congr
  intro x hx
  rw [hrel x (demoSlots_mem_ne _ x hx)]

/-- Witness for C8: a Monday resolution with one stored booking at
9:00 AM on the formatted date `"D1"` returns exactly the remaining
five catalog labels. -/
theorem weekday_availability_filters_bookings_witness :
    ((∀ b ∈ (⟨[], [mondayBooking]⟩ : SrvState).bookedDemos, b.datetime ≠ none) ∧
     ¬(weekdayNameOf (resolveDate (emptyArgs.whenArg.getD "") 1) = "saturday" ∨
       weekdayNameOf (resolveDate (emptyArgs.whenArg.getD "") 1) = "sunday")) ∧
    replyTimes (callTool "check_availability" emptyArgs ⟨[], [mondayBooking]⟩ 1 0 dFmt).1 =
      (demoSlots (weekdayNameOf (resolveDate (emptyArgs.whenArg.getD "") 1))).filter
        (fun slot =>
          ! slotTaken [mondayBooking] (dFmt (resolveDate (emptyArgs.whenArg.getD "") 1)) slot) :=
  ⟨⟨by decide, by decide⟩,
    weekday_availability_filters_bookings emptyArgs ⟨[], [mondayBooking]⟩ 1 0 dFmt
      (by decide) (by decide)⟩

end AiSdr
